import Mathlib

/-!
Shallow embedding of `src/lib/employee.py`: a minimal ORM binding an
`Employee` value object to rows of an `employees` table in SQLite.

Modelling choices, all read off the source:
  * A table row holds `id INTEGER PRIMARY KEY` (always present, a `Nat`),
    and three nullable columns `name TEXT`, `job_title TEXT`,
    `department_id INTEGER`, embedded as `Option` values (SQL NULL = `none`).
  * The database state `DB` is the list of rows plus the cursor's
    `lastrowid` and a log of storage events (statement executions and
    commits), so that the order of `CURSOR.execute` / `CONN.commit` calls
    inside each method is captured.
  * SQLite assigns a fresh `INTEGER PRIMARY KEY` as `max(rowid) + 1`;
    `freshId` embeds that rule.
  * SQL `col = ?` with a NULL parameter matches no row; SQL `col IS ?`
    is NULL-safe equality. `sqlEqId` and `sqlEqName` embed the two
    comparisons the source uses (`WHERE id = ?`, `WHERE name is ?`).
  * Python methods that mutate `self` (only `save` assigns to `self.id`)
    are embedded as functions returning the updated employee together with
    the updated database.
-/

/-- One row of the `employees` table. -/
structure Row where
  id : Nat
  name : Option String
  job_title : Option String
  department_id : Option Int
  deriving DecidableEq, Repr

/-- The in-memory `Employee` object: `__init__` stores `id` (defaulting to
`None`), `name`, `job_title`, `department_id`. -/
structure Employee where
  id : Option Nat
  name : Option String
  job_title : Option String
  department_id : Option Int
  deriving DecidableEq, Repr

/-- The parameterized SQL statements the source builds. -/
inductive Stmt where
  | insertEmployees
  | updateEmployees
  | deleteEmployees
  | selectAll
  | selectById
  | selectByName
  deriving DecidableEq, Repr

/-- A storage event: `CURSOR.execute(sql, params)` or `CONN.commit()`. -/
inductive Ev where
  | exec (s : Stmt)
  | commit
  deriving DecidableEq, Repr

/-- Database state: table rows, the cursor's `lastrowid`, and the log of
storage events issued so far. -/
structure DB where
  rows : List Row
  lastrowid : Nat
  log : List Ev
  deriving DecidableEq, Repr

/-- Largest row id in the table (0 when empty). -/
def maxId (rows : List Row) : Nat :=
  rows.foldr (fun r m => max r.id m) 0

/-- The rowid SQLite assigns to the next inserted row: `max(rowid) + 1`. -/
def freshId (rows : List Row) : Nat :=
  maxId rows + 1

/-- SQL `id = ?`: a NULL parameter matches no row, an integer parameter
matches by equality. -/
def sqlEqId (p : Option Nat) (rid : Nat) : Bool :=
  match p with
  | some n => rid == n
  | none => false

/-- SQL `name = ?` on a nullable column: NULL on either side matches
nothing. (The source's `find_by_name` does NOT use this; it uses `IS`,
embedded by `sqlIsName`. This definition exists to compare the two.) -/
def sqlEqName (p : Option String) (v : Option String) : Bool :=
  match p, v with
  | some a, some b => a == b
  | _, _ => false

/-- SQL `name is ?`: NULL-safe equality, `NULL IS NULL` is true. -/
def sqlIsName (p : Option String) (v : Option String) : Bool :=
  p == v

/-- Append a statement-execution event to the log (a read-only
`CURSOR.execute` that touches no rows). -/
def DB.execOnly (db : DB) (s : Stmt) : DB :=
  { db with log := db.log ++ [Ev.exec s] }

/-- `CONN.commit()`. -/
def DB.commit (db : DB) : DB :=
  { db with log := db.log ++ [Ev.commit] }

namespace Employee

/-- `save`: `INSERT INTO employees (name, job_title, department_id)
VALUES (?, ?, ?)`, then `CONN.commit()`, then `self.id = CURSOR.lastrowid`. -/
def save (self : Employee) (db : DB) : Employee × DB :=
  let newId := freshId db.rows
  let db1 : DB :=
    { db with
      rows := db.rows ++
        [{ id := newId, name := self.name, job_title := self.job_title,
           department_id := self.department_id }]
      lastrowid := newId
      log := db.log ++ [Ev.exec Stmt.insertEmployees] }
  let db2 := db1.commit
  ({ self with id := some db2.lastrowid }, db2)

/-- `update`: `UPDATE employees SET name = ?, job_title = ?,
department_id = ? WHERE id = ?`, then `CONN.commit()`. -/
def update (self : Employee) (db : DB) : Employee × DB :=
  let db1 : DB :=
    { db with
      rows := db.rows.map (fun r =>
        if sqlEqId self.id r.id then
          { r with name := self.name, job_title := self.job_title,
                   department_id := self.department_id }
        else r)
      log := db.log ++ [Ev.exec Stmt.updateEmployees] }
  (self, db1.commit)

/-- `delete`: `DELETE FROM employees WHERE id = ?`, then `CONN.commit()`. -/
def delete (self : Employee) (db : DB) : Employee × DB :=
  let db1 : DB :=
    { db with
      rows := db.rows.filter (fun r => !(sqlEqId self.id r.id))
      log := db.log ++ [Ev.exec Stmt.deleteEmployees] }
  (self, db1.commit)

/-- `create`: build `Employee(name, job_title, department_id)` (id `None`)
and `save` it. -/
def create (name : Option String) (job_title : Option String)
    (department_id : Option Int) (db : DB) : Employee × DB :=
  let employee : Employee :=
    { id := none, name := name, job_title := job_title,
      department_id := department_id }
  employee.save db

/-- `new_from_db`: build an `Employee` from a positional row
`(id, name, job_title, department_id)`. -/
def new_from_db (row : Row) : Employee :=
  { id := some row.id, name := row.name, job_title := row.job_title,
    department_id := row.department_id }

/-- `get_all`: `SELECT * FROM employees`, `fetchall()`, map each row;
no commit. -/
def get_all (db : DB) : List Employee × DB :=
  (db.rows.map new_from_db, db.execOnly Stmt.selectAll)

/-- `find_by_id`: `SELECT * FROM employees WHERE id = ?`, `fetchone()`,
map the row if any; no commit. -/
def find_by_id (i : Option Nat) (db : DB) : Option Employee × DB :=
  ((db.rows.find? (fun r => sqlEqId i r.id)).map new_from_db,
   db.execOnly Stmt.selectById)

/-- `find_by_name`: `SELECT * FROM employees WHERE name is ?`,
`fetchone()`, map the row if any; no commit. -/
def find_by_name (name : Option String) (db : DB) : Option Employee × DB :=
  ((db.rows.find? (fun r => sqlIsName name r.name)).map new_from_db,
   db.execOnly Stmt.selectByName)

end Employee

/-- A concrete unpersisted employee, used as a test vector. -/
def emp0 : Employee :=
  { id := none, name := some "a", job_title := some "b",
    department_id := some 7 }

/-- A concrete employee whose id is set to 1. -/
def emp1 : Employee :=
  { id := some 1, name := some "a", job_title := some "b",
    department_id := some 7 }

/-- A concrete employee whose id is set to 5. -/
def emp5 : Employee :=
  { id := some 5, name := some "a", job_title := some "b",
    department_id := some 7 }

/-- A concrete row with id 1 and the fields of `emp1`. -/
def row1 : Row :=
  { id := 1, name := some "a", job_title := some "b",
    department_id := some 7 }

/-- A concrete row with id 2 and NULL in every other column. -/
def row2 : Row :=
  { id := 2, name := none, job_title := none, department_id := none }

/-- The empty database. -/
def db0 : DB :=
  { rows := [], lastrowid := 0, log := [] }

/-- A database holding exactly `row1`. -/
def db1 : DB :=
  { rows := [row1], lastrowid := 0, log := [] }

/-- A database holding exactly `row2` (whose name column is NULL). -/
def db2 : DB :=
  { rows := [row2], lastrowid := 0, log := [] }

/-! Helper lemmas about `maxId` and `freshId`. -/

/-- Every row id in the table is bounded by `maxId`. -/
theorem mem_id_le_maxId (r : Row) (rows : List Row) (h : r ∈ rows) :
    r.id ≤ maxId rows := by
  induction rows with
  | nil => cases h
  | cons a l ih =>
    simp only [maxId, List.foldr_cons]
    rcases List.mem_cons.mp h with h1 | h2
    · subst h1; exact le_max_left _ _
    · exact le_trans (ih h2) (le_max_right _ _)

/-- The freshly assigned rowid differs from every existing row id. -/
theorem freshId_not_mem (r : Row) (rows : List Row) (h : r ∈ rows) :
    r.id ≠ freshId rows := by
  have := mem_id_le_maxId r rows h
  simp only [freshId]
  omega

/-- C1: for every (name, job_title, department_id) and every database
state, `create(name, job_title, department_id)` followed by `find_by_id`
on the returned employee's id yields an employee whose name, job_title and
department_id equal the values passed to create and whose id equals the
returned employee's id. -/
theorem create_find_by_id_roundtrip (name job_title : Option String)
    (department_id : Option Int) (db : DB) :
    (Employee.find_by_id (Employee.create name job_title department_id db).1.id
        (Employee.create name job_title department_id db).2).1 =
      some { id := (Employee.create name job_title department_id db).1.id,
             name := name, job_title := job_title,
             department_id := department_id } := by
  have hnone :
      db.rows.find? (fun r => sqlEqId (some (freshId db.rows)) r.id) = none := by
    refine List.find?_eq_none.mpr (fun r hr => ?_)
    have := freshId_not_mem r db.rows hr
    simp [sqlEqId, this]
  simp [Employee.create, Employee.save, Employee.find_by_id, DB.commit,
    List.find?_append, hnone, sqlEqId, Employee.new_from_db]
  exact ⟨_, Or.inr ⟨fun x hx => freshId_not_mem x db.rows hx, rfl⟩,
    rfl, rfl, rfl, rfl⟩

/-- C2: for every employee whose id is unset, `save` appends exactly one
new row holding the employee's name, job_title and department_id, and the
resulting employee object is the input with only the id field overwritten
by the storage-generated rowid (`lastrowid`). -/
theorem save_unset_inserts_one_row (e : Employee) (db : DB)
    (h : e.id = none) :
    (e.save db).2.rows = db.rows ++
      [{ id := freshId db.rows, name := e.name, job_title := e.job_title,
         department_id := e.department_id }] ∧
    (e.save db).2.lastrowid = freshId db.rows ∧
    (e.save db).1 = { e with id := some (freshId db.rows) } := by
  refine ⟨?_, ?_, ?_⟩ <;> simp [Employee.save, DB.commit]

/-- C2 witness: saving `emp0` (unset id) into the empty database inserts
one row with rowid 1 and sets the object's id to 1. -/
theorem save_unset_inserts_one_row_witness :
    (Employee.save emp0 db0).2.rows = [row1] ∧
    (Employee.save emp0 db0).1.id = some 1 := by
  have h := save_unset_inserts_one_row emp0 db0 rfl
  refine ⟨?_, ?_⟩
  · rw [h.1]; rfl
  · rw [h.2.2]; rfl

/-- C3: `find_by_id` with an id matching no row returns `none` (an absent
result, not an error). -/
theorem find_by_id_miss_returns_none (n : Nat) (db : DB)
    (h : ∀ r ∈ db.rows, r.id ≠ n) :
    (Employee.find_by_id (some n) db).1 = none := by
  have hnone : db.rows.find? (fun r => sqlEqId (some n) r.id) = none :=
    List.find?_eq_none.mpr (fun r hr => by simp [sqlEqId, h r hr])
  simp [Employee.find_by_id, hnone]

/-- C3 witness: looking up id 1 in a table whose only row has id 2
returns `none`. -/
theorem find_by_id_miss_returns_none_witness :
    (Employee.find_by_id (some 1) db2).1 = none :=
  find_by_id_miss_returns_none 1 db2 (by decide)

/-- C7: `delete` does not modify any field of the in-memory employee
object; in particular its id retains its pre-delete value. -/
theorem delete_preserves_object (e : Employee) (db : DB) :
    (e.delete db).1 = e ∧ (e.delete db).1.id = e.id :=
  ⟨rfl, rfl⟩

/-- C4: when the employee's id matches no row, `update` and `delete` both
complete (they are total functions), leave the table rows unchanged, and
return exactly what they return in every other case — the unchanged
employee object and no affected-row count — so the caller cannot
distinguish the miss from a success. -/
theorem update_delete_missing_id_noop (e : Employee) (db : DB)
    (h : ∀ r ∈ db.rows, sqlEqId e.id r.id = false) :
    (e.update db).2.rows = db.rows ∧ (e.update db).1 = e ∧
    (e.delete db).2.rows = db.rows ∧ (e.delete db).1 = e := by
  refine ⟨?_, rfl, ?_, rfl⟩
  · show db.rows.map _ = db.rows
    calc db.rows.map (fun r =>
          if sqlEqId e.id r.id then
            { r with name := e.name, job_title := e.job_title,
                     department_id := e.department_id }
          else r)
        = db.rows.map id := List.map_congr_left (fun r hr => by
            simp [h r hr])
      _ = db.rows := List.map_id db.rows
  · show db.rows.filter _ = db.rows
    exact List.filter_eq_self.mpr (fun r hr => by simp [h r hr])

/-- C4 witness: updating and deleting `emp5` (id 5) against the database
whose only row has id 2 leaves that row in place and the object intact. -/
theorem update_delete_missing_id_noop_witness :
    (Employee.update emp5 db2).2.rows = db2.rows ∧
    (Employee.update emp5 db2).1 = emp5 ∧
    (Employee.delete emp5 db2).2.rows = db2.rows ∧
    (Employee.delete emp5 db2).1 = emp5 :=
  update_delete_missing_id_noop emp5 db2 (by decide)

/-- C5: for a persisted employee (id set and matching a row), after
`delete` the lookup `find_by_id` on the employee's (unchanged) id returns
`none`. -/
theorem delete_then_find_by_id_none (e : Employee) (i : Nat) (db : DB)
    (hid : e.id = some i) (hrow : ∃ r ∈ db.rows, r.id = i) :
    (Employee.find_by_id (e.delete db).1.id (e.delete db).2).1 = none := by
  have hnone :
      ((e.delete db).2.rows.find? (fun r => sqlEqId e.id r.id)) = none := by
    refine List.find?_eq_none.mpr (fun r hr => ?_)
    have hmem : r ∈ db.rows.filter (fun r => !(sqlEqId e.id r.id)) := by
      simpa [Employee.delete, DB.commit] using hr
    have := (List.mem_filter.mp hmem).2
    simp only [Bool.not_eq_true'] at this
    simp [this]
  simpa [Employee.find_by_id] using congrArg (Option.map Employee.new_from_db) hnone

/-- C5 witness: deleting `emp1` (id 1) from the database whose only row
has id 1, then looking the id up, yields `none`. -/
theorem delete_then_find_by_id_none_witness :
    (Employee.find_by_id (Employee.delete emp1 db1).1.id
      (Employee.delete emp1 db1).2).1 = none :=
  delete_then_find_by_id_none emp1 1 db1 (by decide) (by decide)

/-- C6: for a persisted employee, running `update` twice with the same
field values yields the same table rows as running it once, and after
either call every row matching the employee's id holds exactly the
updated field values. -/
theorem update_idempotent (e : Employee) (i : Nat) (db : DB)
    (hid : e.id = some i) (hrow : ∃ r ∈ db.rows, r.id = i) :
    (e.update (e.update db).2).2.rows = (e.update db).2.rows ∧
    (∀ r ∈ (e.update db).2.rows, r.id = i →
      r.name = e.name ∧ r.job_title = e.job_title ∧
      r.department_id = e.department_id) := by
  clear hrow
  constructor
  · show ((db.rows.map _).map _) = db.rows.map _
    rw [List.map_map]
    refine List.map_congr_left (fun r _ => ?_)
    by_cases hc : sqlEqId e.id r.id
    · simp [Function.comp, hc]
    · simp [Function.comp, hc]
  · intro r hr hri
    have hr2 : r ∈ db.rows.map (fun r =>
        if sqlEqId e.id r.id then
          { r with name := e.name, job_title := e.job_title,
                   department_id := e.department_id }
        else r) := by
      simpa [Employee.update, DB.commit] using hr
    rcases List.mem_map.mp hr2 with ⟨r0, _, hmap⟩
    by_cases hc : sqlEqId e.id r0.id
    · rw [if_pos hc] at hmap
      subst hmap
      exact ⟨rfl, rfl, rfl⟩
    · rw [if_neg hc] at hmap
      subst hmap
      exact absurd (by simp [sqlEqId, hid, hri]) hc

/-- C6 witness: updating `emp1` twice against the one-row database with
matching id 1 gives the same rows as one update, and the matching row
carries the updated values. -/
theorem update_idempotent_witness :
    (Employee.update emp1 (Employee.update emp1 db1).2).2.rows =
      (Employee.update emp1 db1).2.rows ∧
    (∀ r ∈ (Employee.update emp1 db1).2.rows, r.id = 1 →
      r.name = emp1.name ∧ r.job_title = emp1.job_title ∧
      r.department_id = emp1.department_id) :=
  update_idempotent emp1 1 db1 (by decide)
    ⟨row1, by decide, by decide⟩

/-- C8 counterexample: the claim says every repository operation —
including the read-only `find_by_id` — commits before returning, but
`find_by_id` run on the empty database issues only a statement execution
and never a commit (the source has no `CONN.commit()` in `get_all`,
`find_by_id` or `find_by_name`). -/
theorem find_by_id_never_commits_cex :
    Ev.commit ∉ ((Employee.find_by_id (some 1) db0).2).log ∧
    Ev.commit ∉ ((Employee.get_all db0).2).log ∧
    Ev.commit ∉ ((Employee.find_by_name (some "a") db0).2).log := by
  refine ⟨?_, ?_, ?_⟩ <;> decide

/-- C8 (amended): the mutating operations `save`, `update`, `delete` and
`create` each execute their statement and then commit before returning,
while the read-only operations `get_all`, `find_by_id` and `find_by_name`
execute their statement but never commit. -/
theorem ops_commit_policy (e : Employee) (nm jt : Option String)
    (d : Option Int) (i : Option Nat) (s : Option String) (db : DB) :
    (e.save db).2.log = db.log ++ [Ev.exec Stmt.insertEmployees, Ev.commit] ∧
    (e.update db).2.log = db.log ++ [Ev.exec Stmt.updateEmployees, Ev.commit] ∧
    (e.delete db).2.log = db.log ++ [Ev.exec Stmt.deleteEmployees, Ev.commit] ∧
    (Employee.create nm jt d db).2.log =
      db.log ++ [Ev.exec Stmt.insertEmployees, Ev.commit] ∧
    (Employee.get_all db).2.log = db.log ++ [Ev.exec Stmt.selectAll] ∧
    (Employee.find_by_id i db).2.log = db.log ++ [Ev.exec Stmt.selectById] ∧
    (Employee.find_by_name s db).2.log =
      db.log ++ [Ev.exec Stmt.selectByName] := by
  refine ⟨?_, ?_, ?_, ?_, ?_, ?_, ?_⟩ <;>
    simp [Employee.save, Employee.update, Employee.delete, Employee.create,
      Employee.get_all, Employee.find_by_id, Employee.find_by_name,
      DB.commit, DB.execOnly]

/-- C9: `save` on an employee whose id is already set does not fail and
does not touch the existing row: it appends a brand-new row with the
current field values, overwrites the object's id with the newly generated
rowid, and that new id differs from the id of every pre-existing row (the
original row is orphaned). -/
theorem save_set_id_inserts_new_row (e : Employee) (i : Nat) (db : DB)
    (hid : e.id = some i) :
    (e.save db).2.rows = db.rows ++
      [{ id := freshId db.rows, name := e.name, job_title := e.job_title,
         department_id := e.department_id }] ∧
    (e.save db).1 = { e with id := some (freshId db.rows) } ∧
    (∀ r ∈ db.rows, (e.save db).1.id ≠ some r.id) := by
  clear hid
  refine ⟨by simp [Employee.save, DB.commit], by simp [Employee.save, DB.commit], ?_⟩
  intro r hr
  have hne := freshId_not_mem r db.rows hr
  simp only [Employee.save, DB.commit]
  intro hcontra
  exact hne (by simpa using hcontra.symm)

/-- C9 witness: saving `emp1` (id already 1) into the one-row database
`db1` appends a second row with id 2 and rewrites the object's id to 2,
leaving row 1 in place. -/
theorem save_set_id_inserts_new_row_witness :
    (Employee.save emp1 db1).2.rows = db1.rows ++
      [{ id := freshId db1.rows, name := emp1.name,
         job_title := emp1.job_title,
         department_id := emp1.department_id }] ∧
    (Employee.save emp1 db1).1 =
      { emp1 with id := some (freshId db1.rows) } ∧
    (∀ r ∈ db1.rows, (Employee.save emp1 db1).1.id ≠ some r.id) :=
  save_set_id_inserts_new_row emp1 1 db1 (by decide)

/-- C10: `find_by_name` uses the SQL `IS` comparison: with argument NULL
(`none`) it returns the first row whose stored name is NULL (mapped to an
employee), so it is not always absent — and with a non-null argument it
agrees exactly with the `=` (equality) semantics. -/
theorem find_by_name_is_semantics (s : String) (db : DB) :
    (Employee.find_by_name (some s) db).1 =
      ((db.rows.find? (fun r => sqlEqName (some s) r.name)).map
        Employee.new_from_db) ∧
    (Employee.find_by_name none db).1 =
      ((db.rows.find? (fun r => r.name.isNone)).map Employee.new_from_db) ∧
    ¬ (∀ dbx : DB, (Employee.find_by_name none dbx).1 = none) := by
  refine ⟨?_, ?_, ?_⟩
  · have hfun : (fun r : Row => sqlIsName (some s) r.name) =
        (fun r : Row => sqlEqName (some s) r.name) := by
      funext r
      cases hr : r.name <;> simp [sqlIsName, sqlEqName, hr]
    simp [Employee.find_by_name, hfun]
  · have hfun : (fun r : Row => sqlIsName none r.name) =
        (fun r : Row => r.name.isNone) := by
      funext r
      cases hr : r.name <;> simp [sqlIsName, hr]
    simp [Employee.find_by_name, hfun]
  · intro hall
    have := hall db2
    simp [Employee.find_by_name, db2, row2, sqlIsName,
      Employee.new_from_db] at this
